import Mathlib

/-!
Shallow embedding of the manual-mode request/response coordinator of the
Mock-OpenAi-Api-Tool backend (`mock_openai_tool/backend/main.py`) and of the
per-IP preset response queue (`mock_openai_tool/backend/queue_manager.py`).

Modelling conventions:
* the module-level globals `pending_requests` (an `asyncio.Queue`, FIFO),
  `current_request` and `request_futures` become the fields of `CoordState`;
* a Python dict is modelled as a function to `Option`/`List` values
  (`request_futures : Nat → Option FutureState`,
  `_queues : String → List PresetItem`; an absent key and an empty deque both
  read as `[]`, matching `ip not in self._queues or not self._queues[ip]`);
* an `asyncio.Future` is modelled by its observable state `FutureState`:
  not done, result set (`set_result`), or exception set (`set_exception`);
* the global set `websocket_clients` is passed explicitly as a list of client
  identifiers, and the outcome of each `ws.send_json` call is supplied by a
  `sendOk` oracle: `sendOk c = false` models `send_json` raising for client `c`;
* a handler body that lets an exception escape is recorded by an `ok := false`
  flag in its `StepOut`; the mutations performed before the raise are kept,
  mirroring Python execution order, and the mutations after it are dropped.
-/

namespace MockApi

/-- A connected websocket consumer (operator console), identified by a token. -/
abbrev Client := Nat

/-- The request dict built in `handle_completion` (fields used by the core;
`method`, `path`, `headers` and `timestamp` are constant strings there and are
omitted). `body` stands for the arbitrary JSON request body. -/
structure Req where
  id : Nat
  ip : String
  port : Nat
  body : String
deriving DecidableEq, Repr

/-- Observable state of an `asyncio.Future` held in `request_futures`:
`pending` = not done; `resolved` = `set_result((response_data, status_code))`;
`cancelled` = `set_exception(asyncio.CancelledError(...))`. -/
inductive FutureState where
  | pending : FutureState
  | resolved (response : String) (statusCode : Nat) : FutureState
  | cancelled : FutureState
deriving DecidableEq, Repr

/-- The `request_futures` dict: request id to the future stored for it. -/
abbrev FutureTable := Nat → Option FutureState

/-- Dict assignment `request_futures[req_id] = future` (state update of the
stored future: `set_result` / `set_exception` update the entry in place). -/
def setFuture (F : FutureTable) (k : Nat) (v : FutureState) : FutureTable :=
  fun j => if j = k then some v else F j

/-- Dict removal `request_futures.pop(req_id, None)`. -/
def removeFuture (F : FutureTable) (k : Nat) : FutureTable :=
  fun j => if j = k then none else F j

/-- The coordinator's global mutable state in `main.py`:
`pending_requests` (FIFO queue, head first), `current_request`,
`request_futures`. -/
structure CoordState where
  pendingRequests : List Req
  currentRequest : Option Req
  requestFutures : FutureTable

/-- A JSON message broadcast to websocket consumers (the payloads relevant to
the coordinator; `data` fields are inlined). -/
inductive Event where
  | newRequest (r : Req) : Event
  | completedRequest (id : Nat) (ip : String) (port : Nat) (body : String)
      (response : String) (statusCode : Nat) : Event
  | queueUpdated (ip : String) : Event
deriving DecidableEq, Repr

/-- Result of running one handler body: the coordinator state afterwards, the
per-consumer deliveries that happened, the `new_request` announcements made
(in order), and whether the body ran to completion (`ok = false` means an
exception escaped the handler at that point). -/
structure StepOut where
  state : CoordState
  delivered : List (Client × Event)
  announced : List Req
  ok : Bool

/-- An unguarded broadcast loop `for ws in websocket_clients: await
ws.send_json(...)` (used at `main.py:325-329` for `new_request` and at
`main.py:372-373` for the operator-path `completed_request`): a raising send
aborts the loop, so consumers after the failing one receive nothing. -/
def sendAllUnguarded (sendOk : Client → Bool) (ev : Event) :
    List Client → List (Client × Event) × Bool
  | [] => ([], true)
  | c :: cs =>
    if sendOk c then
      let rest := sendAllUnguarded sendOk ev cs
      ((c, ev) :: rest.1, rest.2)
    else ([], false)

/-- The broadcast loop with a per-consumer `try/except` that only logs
(`main.py:260-264`, preset-path `completed_request`): failures are skipped,
nobody is removed. -/
def sendAllLogged (sendOk : Client → Bool) (ev : Event) :
    List Client → List (Client × Event)
  | [] => []
  | c :: cs =>
    if sendOk c then (c, ev) :: sendAllLogged sendOk ev cs
    else sendAllLogged sendOk ev cs

/-- The loop body of `broadcast_websocket` (`main.py:92-98`): per-consumer
`try/except` collecting failing consumers into `disconnected_clients`.
Returns (deliveries, collected failures). -/
def broadcastLoop (sendOk : Client → Bool) (ev : Event) :
    List Client → List (Client × Event) × List Client
  | [] => ([], [])
  | c :: cs =>
    let rest := broadcastLoop sendOk ev cs
    if sendOk c then ((c, ev) :: rest.1, rest.2) else (rest.1, c :: rest.2)

/-- Function `broadcast_websocket` (`main.py:85-101`): attempt delivery to every
consumer independently, then `websocket_clients.difference_update(
disconnected_clients)`. Returns (deliveries, surviving consumer set). -/
def broadcast_websocket (sendOk : Client → Bool) (ev : Event)
    (clients : List Client) : List (Client × Event) × List Client :=
  let res := broadcastLoop sendOk ev clients
  (res.1, clients.filter (fun c => !(res.2.contains c)))

/-- Function `process_next_request` (`main.py:317-329`): if `current_request` is set or
the queue is empty, return; otherwise dequeue the head, make it current, and
send `new_request` to every consumer through an unguarded loop. -/
def process_next_request (sendOk : Client → Bool) (clients : List Client)
    (s : CoordState) : StepOut :=
  match s.currentRequest with
  | some _ => ⟨s, [], [], true⟩
  | none =>
    match s.pendingRequests with
    | [] => ⟨s, [], [], true⟩
    | r :: rest =>
      let s1 : CoordState :=
        { s with pendingRequests := rest, currentRequest := some r }
      let sent := sendAllUnguarded sendOk (Event.newRequest r) clients
      ⟨s1, sent.1, [r], sent.2⟩

/-- The manual-mode submission step of `handle_completion`
(`main.py:269-286`): create the future, enqueue the request dict, and call
`process_next_request`. -/
def coordinatorSubmit (sendOk : Client → Bool) (clients : List Client)
    (s : CoordState) (r : Req) : StepOut :=
  let s1 : CoordState :=
    { s with
      requestFutures := setFuture s.requestFutures r.id FutureState.pending,
      pendingRequests := s.pendingRequests ++ [r] }
  process_next_request sendOk clients s1

/-- The `send_response` branch of the websocket receive loop
(`main.py:348-376`), after the three message fields have been read:
look up the future; if present and not done, `set_result`, build
`completed_data` from `current_request` (raising `TypeError` when
`current_request` is `None`), send it to every consumer through an unguarded
loop, then set `current_request = None` unconditionally and call
`process_next_request`. If the future is absent or done, nothing happens. -/
def ws_send_response (sendOk : Client → Bool) (clients : List Client)
    (s : CoordState) (reqId : Nat) (resp : String) (code : Nat) : StepOut :=
  match s.requestFutures reqId with
  | some FutureState.pending =>
    let futures2 := setFuture s.requestFutures reqId
      (FutureState.resolved resp code)
    match s.currentRequest with
    | none => ⟨{ s with requestFutures := futures2 }, [], [], false⟩
    | some cur =>
      let ev := Event.completedRequest reqId cur.ip cur.port cur.body resp code
      let sent := sendAllUnguarded sendOk ev clients
      if sent.2 then
        let out := process_next_request sendOk clients
          { s with requestFutures := futures2, currentRequest := none }
        ⟨out.state, sent.1 ++ out.delivered, out.announced, out.ok⟩
      else
        ⟨{ s with requestFutures := futures2 }, sent.1, [], false⟩
  | _ => ⟨s, [], [], true⟩

/-- An inbound operator message as a JSON dict; `none` fields model missing
keys (`msg["type"]`, `msg["id"]`, `msg["response"]` raise `KeyError` when
missing; `msg.get("status_code", 200)` defaults). -/
structure WsMsg where
  type : Option String
  id : Option Nat
  statusCode : Option Nat
  response : Option String

/-- One iteration of the websocket receive loop body (`main.py:347-376`):
read `msg["type"]`; on `send_response` read `msg["id"]`,
`msg.get("status_code", 200)`, `msg["response"]` and run the resolve branch;
any other type falls through and the loop continues. A missing required key
raises `KeyError` (`ok := false`), which is not caught inside the loop. -/
def handle_ws_message (sendOk : Client → Bool) (clients : List Client)
    (s : CoordState) (msg : WsMsg) : StepOut :=
  match msg.type with
  | none => ⟨s, [], [], false⟩
  | some t =>
    if t = "send_response" then
      match msg.id with
      | none => ⟨s, [], [], false⟩
      | some reqId =>
        let code := msg.statusCode.getD 200
        match msg.response with
        | none => ⟨s, [], [], false⟩
        | some resp => ws_send_response sendOk clients s reqId resp code
    else ⟨s, [], [], true⟩

/-- One observable step of `websocket_endpoint`'s loop (`main.py:345-379`)
for consumer `self`: `msg = none` models `receive_json` raising
`WebSocketDisconnect`, whose handler removes `self` from `websocket_clients`;
otherwise the message is processed and the consumer set is untouched — in
particular an exception escaping `handle_ws_message` (`ok = false`) ends the
loop without removing `self`. Returns (state, consumer set, loop continues). -/
def websocket_receive_step (sendOk : Client → Bool) (clients : List Client)
    (self : Client) (s : CoordState) (msg : Option WsMsg) :
    CoordState × List Client × Bool :=
  match msg with
  | none => (s, clients.erase self, false)
  | some m =>
    let out := handle_ws_message sendOk clients s m
    (out.state, clients, out.ok)

/-- The cancellation performed by `_check_client_disconnect`
(`main.py:133-135`) once a disconnect is seen: if the future exists and is not
done, `set_exception(asyncio.CancelledError(...))`; otherwise nothing. -/
def cancelOnDisconnect (s : CoordState) (reqId : Nat) : CoordState :=
  match s.requestFutures reqId with
  | some FutureState.pending =>
    { s with
      requestFutures := setFuture s.requestFutures reqId FutureState.cancelled }
  | _ => s

/-- Function `_cleanup_current_request` (`main.py:142-151`): clear `current_request`
and advance only when it still refers to `req_id`. -/
def cleanup_current_request (sendOk : Client → Bool) (clients : List Client)
    (s : CoordState) (reqId : Nat) : StepOut :=
  match s.currentRequest with
  | some cur =>
    if cur.id = reqId then
      process_next_request sendOk clients { s with currentRequest := none }
    else ⟨s, [], [], true⟩
  | none => ⟨s, [], [], true⟩

/-- The `finally` block of `handle_completion` (`main.py:309-314`), run when
the wait on the future ends (in particular on timeout):
`request_futures.pop(req_id, None)` then `_cleanup_current_request(req_id)`. -/
def timeout_finalize (sendOk : Client → Bool) (clients : List Client)
    (s : CoordState) (reqId : Nat) : StepOut :=
  cleanup_current_request sendOk clients
    { s with requestFutures := removeFuture s.requestFutures reqId } reqId

/-- The per-submission wait bound: `asyncio.wait_for(future, timeout=300)`
(`main.py:293`). -/
def submit_wait_timeout_seconds : Nat := 300

/-- The HTTP answer produced on `asyncio.TimeoutError` (`main.py:306-308`):
error body text and status code. -/
def timeout_http_response : String × Nat :=
  ("Timeout waiting for mock response", 504)

/-- One entry of a per-IP preset queue (`queue_manager.py:48-53`; the
`created_at` timestamp is omitted). -/
structure PresetItem where
  id : Nat
  response : String
  statusCode : Nat
deriving DecidableEq, Repr

/-- The `_queues` dict of `PresetQueueManager`: IP address to deque of preset
items; an absent key reads as `[]`. -/
abbrev PresetTable := String → List PresetItem

/-- Method `PresetQueueManager.check_and_pop` (`queue_manager.py:59-75`): if the IP
has no queue or an empty one, `None`; otherwise `popleft` the head and return
its `(response, status_code)` together with the updated table. -/
def check_and_pop (queues : PresetTable) (ip : String) :
    Option ((String × Nat) × PresetTable) :=
  match queues ip with
  | [] => none
  | item :: rest =>
    some ((item.response, item.statusCode),
      fun j => if j = ip then rest else queues j)

/-- How `handle_completion` answers one inbound request. -/
inductive Outcome where
  | bypassForwarded : Outcome
  | presetServed (response : String) (statusCode : Nat) : Outcome
  | manualSubmitted (reqId : Nat) : Outcome
deriving DecidableEq, Repr

/-- The whole-process state seen by `handle_completion`: the bypass flag
(`bypass_config_manager.is_enabled()`), the preset queues, and the
coordinator's globals. -/
structure SysState where
  bypassEnabled : Bool
  presetQueues : PresetTable
  coord : CoordState

/-- The dispatch logic of `handle_completion` (`main.py:228-286`):
priority 1 — bypass mode forwards the request (`handle_bypass_request`;
forwarding itself is external I/O, abstracted as the `bypassForwarded`
outcome) and touches neither the preset queues nor the coordinator;
priority 2 — a preset response for the client IP is popped and returned, with
a `queue_updated` broadcast via `broadcast_websocket` and a
`completed_request` broadcast via the logged per-consumer loop;
priority 3 — only otherwise, the request enters the manual-mode coordinator.
Returns (new state, outcome, deliveries). -/
def handle_completion (sendOk : Client → Bool) (clients : List Client)
    (st : SysState) (r : Req) : SysState × Outcome × List (Client × Event) :=
  if st.bypassEnabled then
    (st, Outcome.bypassForwarded, [])
  else
    match check_and_pop st.presetQueues r.ip with
    | some ((resp, code), queues2) =>
      let upd := broadcast_websocket sendOk (Event.queueUpdated r.ip) clients
      let done := sendAllLogged sendOk
        (Event.completedRequest r.id r.ip r.port r.body resp code) clients
      ({ st with presetQueues := queues2 },
        Outcome.presetServed resp code, upd.1 ++ done)
    | none =>
      let out := coordinatorSubmit sendOk clients st.coord r
      ({ st with coord := out.state }, Outcome.manualSubmitted r.id,
        out.delivered)

/-- The coordinator state right after startup (`initialize_globals`,
`main.py:60-62`): empty queue, no current request, empty future table. -/
def initCoordState : CoordState := ⟨[], none, fun _ => none⟩

/-- A run of consecutive manual-mode submissions (each performing the
enqueue-then-advance step of `handle_completion`), collecting the
`new_request` announcements in order. -/
def runSubmits (sendOk : Client → Bool) (clients : List Client) :
    CoordState → List Req → CoordState × List Req
  | s, [] => (s, [])
  | s, r :: rs =>
    let out := coordinatorSubmit sendOk clients s r
    let rest := runSubmits sendOk clients out.state rs
    (rest.1, out.announced ++ rest.2)

/-- An operator console answering the currently announced request: a
`send_response` message whose id is `current_request["id"]` (the wire contract
of `main.py:348-357` driven from the console's view of the current request). -/
def resolveCurrent (sendOk : Client → Bool) (clients : List Client)
    (s : CoordState) (resp : String) (code : Nat) : StepOut :=
  match s.currentRequest with
  | some cur => ws_send_response sendOk clients s cur.id resp code
  | none => ⟨s, [], [], true⟩

/-- Runs `n` successive operator resolutions of the current request, collecting the
`new_request` announcements each resolution triggers. -/
def runDrain (sendOk : Client → Bool) (clients : List Client) :
    CoordState → Nat → CoordState × List Req
  | s, 0 => (s, [])
  | s, n + 1 =>
    let out := resolveCurrent sendOk clients s "ok" 200
    let rest := runDrain sendOk clients out.state n
    (rest.1, out.announced ++ rest.2)

/-- Futures created by a list of submissions, in submission order
(`request_futures[req_id] = future` at `main.py:270`). -/
def addPendings (F : FutureTable) (rs : List Req) : FutureTable :=
  rs.foldl (fun acc r => setFuture acc r.id FutureState.pending) F

/-! Helper lemmas about the embedded operations. -/

lemma setFuture_self (F : FutureTable) (k : Nat) (v : FutureState) :
    setFuture F k v k = some v := by
  simp [setFuture]

lemma setFuture_ne (F : FutureTable) (k j : Nat) (v : FutureState)
    (h : j ≠ k) : setFuture F k v j = F j := by
  simp [setFuture, h]

lemma removeFuture_self (F : FutureTable) (k : Nat) :
    removeFuture F k k = none := by
  simp [removeFuture]

lemma process_next_request_futures (sendOk : Client → Bool)
    (clients : List Client) (s : CoordState) :
    (process_next_request sendOk clients s).state.requestFutures
      = s.requestFutures := by
  rcases s with ⟨pend, cur, F⟩
  cases cur <;> cases pend <;> rfl

lemma sendAllUnguarded_all_ok (sendOk : Client → Bool) (ev : Event) :
    ∀ clients : List Client, (∀ c ∈ clients, sendOk c = true) →
    sendAllUnguarded sendOk ev clients = (clients.map (fun c => (c, ev)), true)
  | [], _ => rfl
  | c :: cs, h => by
    have hc : sendOk c = true := h c (List.mem_cons_self c cs)
    have ih := sendAllUnguarded_all_ok sendOk ev cs
      (fun x hx => h x (List.mem_cons_of_mem c hx))
    simp [sendAllUnguarded, hc, ih]

lemma ws_send_response_futures_resolved (sendOk : Client → Bool)
    (clients : List Client) (s : CoordState) (reqId : Nat) (resp : String)
    (code : Nat) (hfut : s.requestFutures reqId = some FutureState.pending) :
    (ws_send_response sendOk clients s reqId resp code).state.requestFutures
        reqId = some (FutureState.resolved resp code) := by
  rcases s with ⟨pend, cur, F⟩
  unfold ws_send_response
  simp only at hfut
  simp only [hfut]
  cases cur with
  | none => simp [setFuture]
  | some c =>
    simp only
    split
    · rw [process_next_request_futures]
      simp [setFuture]
    · simp [setFuture]

lemma ws_send_response_noop (sendOk : Client → Bool) (clients : List Client)
    (s : CoordState) (reqId : Nat) (resp : String) (code : Nat)
    (h : ∀ f, s.requestFutures reqId = some f → f ≠ FutureState.pending) :
    ws_send_response sendOk clients s reqId resp code = ⟨s, [], [], true⟩ := by
  unfold ws_send_response
  cases hf : s.requestFutures reqId with
  | none => rfl
  | some f =>
    cases f with
    | pending => exact absurd rfl (h _ hf)
    | resolved r c => rfl
    | cancelled => rfl

lemma cancelOnDisconnect_noop (s : CoordState) (reqId : Nat)
    (h : ∀ f, s.requestFutures reqId = some f → f ≠ FutureState.pending) :
    cancelOnDisconnect s reqId = s := by
  unfold cancelOnDisconnect
  cases hf : s.requestFutures reqId with
  | none => rfl
  | some f =>
    cases f with
    | pending => exact absurd rfl (h _ hf)
    | resolved r c => rfl
    | cancelled => rfl

lemma cancelOnDisconnect_pending (s : CoordState) (reqId : Nat)
    (hf : s.requestFutures reqId = some FutureState.pending) :
    cancelOnDisconnect s reqId
      = { s with
          requestFutures := setFuture s.requestFutures reqId
            FutureState.cancelled } := by
  unfold cancelOnDisconnect
  rw [hf]

lemma broadcastLoop_eq (sendOk : Client → Bool) (ev : Event) :
    ∀ l : List Client,
    broadcastLoop sendOk ev l
      = ((l.filter (fun x => sendOk x)).map (fun x => (x, ev)),
        l.filter (fun x => !sendOk x))
  | [] => rfl
  | c :: cs => by
    have ih := broadcastLoop_eq sendOk ev cs
    by_cases h : sendOk c = true <;>
      simp [broadcastLoop, ih, h, List.filter_cons]

lemma broadcast_websocket_eq (sendOk : Client → Bool) (ev : Event)
    (clients : List Client) :
    broadcast_websocket sendOk ev clients
      = ((clients.filter (fun x => sendOk x)).map (fun x => (x, ev)),
        clients.filter (fun x => sendOk x)) := by
  unfold broadcast_websocket
  rw [broadcastLoop_eq]
  simp only
  congr 1
  apply List.filter_congr
  intro x hx
  simp [List.elem_iff, List.mem_filter]
  cases h : sendOk x <;> simp [hx]

lemma sendAllUnguarded_aborts (sendOk : Client → Bool) (ev : Event)
    (c : Client) (cs2 : List Client) (hc : sendOk c = false) :
    ∀ cs1 : List Client, (∀ x ∈ cs1, sendOk x = true) →
    sendAllUnguarded sendOk ev (cs1 ++ c :: cs2)
      = (cs1.map (fun x => (x, ev)), false)
  | [], _ => by simp [sendAllUnguarded, hc]
  | x :: xs, h => by
    have hx : sendOk x = true := h x (List.mem_cons_self x xs)
    have ih := sendAllUnguarded_aborts sendOk ev c cs2 hc xs
      (fun y hy => h y (List.mem_cons_of_mem x hy))
    simp [sendAllUnguarded, hx, ih]

/-! Concrete states used to exercise the model (a reachable configuration:
request `reqA` has been announced and is current, request `reqB` was
submitted while `reqA` was current, so `reqB` sits in the pending queue with
a pending future and has not been announced). -/

/-- A first submitted request, announced and current. -/
def reqA : Req := ⟨1, "10.0.0.1", 5000, "body-a"⟩

/-- A second submitted request, still queued and unannounced. -/
def reqB : Req := ⟨2, "10.0.0.2", 5001, "body-b"⟩

/-- The future table holding pending futures for `reqA` and `reqB`. -/
def staleFutures : FutureTable :=
  fun j => if j = 1 then some FutureState.pending
    else if j = 2 then some FutureState.pending else none

/-- Coordinator state with `reqA` current and `reqB` queued. -/
def staleState : CoordState := ⟨[reqB], some reqA, staleFutures⟩

/-- Coordinator state with a free slot and `reqB` at the head of the queue. -/
def advState : CoordState := ⟨[reqB], none, staleFutures⟩

/-- An operator `send_response` message missing its `response` field. -/
def badMsg : WsMsg := ⟨some "send_response", some 1, none, none⟩

/-- A preset response queued for IP `10.0.0.1`. -/
def presetItem1 : PresetItem := ⟨9, "canned", 201⟩

/-- Preset queues: one entry for `10.0.0.1`, nothing elsewhere. -/
def presetQs : PresetTable :=
  fun j => if j = "10.0.0.1" then [presetItem1] else []

/-- Whole-process state with bypass disabled and one preset queued. -/
def sysPreset : SysState := ⟨false, presetQs, staleState⟩

/-- Whole-process state with bypass enabled. -/
def sysBypass : SysState := ⟨true, presetQs, staleState⟩

/-- C7: `process_next_request` (the spec's `advance()`) is an idempotent
no-op when the current slot is occupied or the pending queue is empty;
otherwise it dequeues exactly the head of the queue, sets it as current and
announces exactly that request; and the resulting state carries at most one
current (announced) request. -/
theorem advance_idempotent_single_flight (sendOk : Client → Bool)
    (clients : List Client) (s : CoordState) :
    (s.currentRequest.isSome = true →
      process_next_request sendOk clients s = ⟨s, [], [], true⟩)
    ∧ (s.pendingRequests = [] →
      process_next_request sendOk clients s = ⟨s, [], [], true⟩)
    ∧ (∀ r rest, s.currentRequest = none → s.pendingRequests = r :: rest →
      (process_next_request sendOk clients s).state
          = { s with currentRequest := some r, pendingRequests := rest }
        ∧ (process_next_request sendOk clients s).announced = [r])
    ∧ (process_next_request sendOk clients
          (process_next_request sendOk clients s).state).state
        = (process_next_request sendOk clients s).state
    ∧ (process_next_request sendOk clients
        s).state.currentRequest.toList.length ≤ 1 := by
  rcases s with ⟨pend, cur, F⟩
  refine ⟨?_, ?_, ?_, ?_, ?_⟩
  · intro h
    cases cur with
    | some c => rfl
    | none => simp at h
  · intro h
    simp only at h
    subst h
    cases cur with
    | some c => rfl
    | none => rfl
  · intro r rest hcur hpend
    simp only at hcur hpend
    subst hcur
    subst hpend
    exact ⟨rfl, rfl⟩
  · cases cur with
    | some c => rfl
    | none =>
      cases pend with
      | nil => rfl
      | cons r rest => rfl
  · cases cur with
    | some c => simp [process_next_request]
    | none =>
      cases pend with
      | nil => simp [process_next_request]
      | cons r rest => simp [process_next_request]

/-- C7 witness: on `staleState` (slot occupied) `advance` is a no-op; on
`advState` (free slot, `reqB` queued) it dequeues and announces `reqB`. -/
theorem advance_idempotent_single_flight_witness :
    process_next_request (fun _ => true) [] staleState
        = ⟨staleState, [], [], true⟩
    ∧ (process_next_request (fun _ => true) [] advState).state
        = { advState with currentRequest := some reqB, pendingRequests := [] }
    ∧ (process_next_request (fun _ => true) [] advState).announced = [reqB] := by
  have h1 := advance_idempotent_single_flight (fun _ => true) [] staleState
  have h2 := advance_idempotent_single_flight (fun _ => true) [] advState
  exact ⟨h1.1 rfl, (h2.2.2.1 reqB [] rfl rfl).1, (h2.2.2.1 reqB [] rfl rfl).2⟩

/-- C8: the manual-mode wait is bounded by 300 seconds and a timeout is
surfaced as status 504 with the timeout error body; the `finally` cleanup
removes the request's future from the resolution table, and when the timed-out
request was current, the slot is cleared and `advance` runs (the next queued
request, if any, becomes current). -/
theorem timeout_cleanup_and_status (sendOk : Client → Bool)
    (clients : List Client) (reqId : Nat) :
    submit_wait_timeout_seconds = 300
    ∧ timeout_http_response = ("Timeout waiting for mock response", 504)
    ∧ (∀ s : CoordState,
        (timeout_finalize sendOk clients s reqId).state.requestFutures reqId
          = none)
    ∧ (∀ (s : CoordState) (cur : Req),
        s.currentRequest = some cur → cur.id = reqId →
        (timeout_finalize sendOk clients s reqId).state.currentRequest
            = s.pendingRequests.head?
          ∧ (timeout_finalize sendOk clients s reqId).state.pendingRequests
            = s.pendingRequests.tail) := by
  refine ⟨rfl, rfl, ?_, ?_⟩
  · intro s
    rcases s with ⟨pend, cur, F⟩
    unfold timeout_finalize cleanup_current_request
    cases cur with
    | none => simp [removeFuture]
    | some c =>
      by_cases h : c.id = reqId
      · simp [h, process_next_request_futures, removeFuture]
      · simp [h, removeFuture]
  · intro s cur hcur hid
    rcases s with ⟨pend, cur0, F⟩
    simp only at hcur
    subst hcur
    subst hid
    cases pend with
    | nil =>
      constructor <;>
        simp [timeout_finalize, cleanup_current_request, process_next_request]
    | cons r rest =>
      constructor <;>
        simp [timeout_finalize, cleanup_current_request, process_next_request]

/-- C8 witness: timing out current request `reqA` (id 1) on `staleState`
removes its future and promotes queued `reqB`. -/
theorem timeout_cleanup_and_status_witness :
    submit_wait_timeout_seconds = 300
    ∧ (timeout_finalize (fun _ => true) [] staleState 1).state.requestFutures 1
        = none
    ∧ (timeout_finalize (fun _ => true) [] staleState 1).state.currentRequest
        = staleState.pendingRequests.head? := by
  have h := timeout_cleanup_and_status (fun _ => true) [] 1
  exact ⟨h.1, h.2.2.1 staleState, (h.2.2.2 staleState reqA rfl rfl).1⟩

/-- C9: resolution strategies are tried in strict priority order — with
bypass enabled the request is forwarded and neither the preset queues nor the
coordinator change; otherwise a non-empty preset queue for the client IP
answers the request with the coordinator untouched; only otherwise does the
request enter the manual-mode coordinator. -/
theorem strategy_priority_order (sendOk : Client → Bool)
    (clients : List Client) (st : SysState) (r : Req) :
    (st.bypassEnabled = true →
      handle_completion sendOk clients st r
        = (st, Outcome.bypassForwarded, []))
    ∧ (st.bypassEnabled = false →
      ∀ item rest, st.presetQueues r.ip = item :: rest →
      (handle_completion sendOk clients st r).2.1
          = Outcome.presetServed item.response item.statusCode
        ∧ (handle_completion sendOk clients st r).1.coord = st.coord)
    ∧ (st.bypassEnabled = false → st.presetQueues r.ip = [] →
      (handle_completion sendOk clients st r).2.1
          = Outcome.manualSubmitted r.id
        ∧ (handle_completion sendOk clients st r).1.coord
            = (coordinatorSubmit sendOk clients st.coord r).state
        ∧ (handle_completion sendOk clients st r).1.presetQueues
            = st.presetQueues) := by
  refine ⟨?_, ?_, ?_⟩
  · intro hb
    unfold handle_completion
    rw [if_pos hb]
  · intro hb item rest hq
    unfold handle_completion check_and_pop
    rw [if_neg (by simp [hb]), hq]
    exact ⟨rfl, rfl⟩
  · intro hb hq
    unfold handle_completion check_and_pop
    rw [if_neg (by simp [hb]), hq]
    exact ⟨rfl, rfl, rfl⟩

/-- C9 witness: with bypass enabled nothing else is touched; with bypass
disabled the queued preset for `10.0.0.1` answers and the coordinator is
untouched. -/
theorem strategy_priority_order_witness :
    handle_completion (fun _ => true) [] sysBypass reqA
        = (sysBypass, Outcome.bypassForwarded, [])
    ∧ (handle_completion (fun _ => true) [] sysPreset reqA).2.1
        = Outcome.presetServed "canned" 201
    ∧ (handle_completion (fun _ => true) [] sysPreset reqA).1.coord
        = staleState := by
  have h1 := strategy_priority_order (fun _ => true) [] sysBypass reqA
  have h2 := strategy_priority_order (fun _ => true) [] sysPreset reqA
  have hp := h2.2.1 rfl presetItem1 [] (by decide)
  exact ⟨h1.1 rfl, hp.1, hp.2⟩

/-- C10: serving a preset response pops exactly the head of that IP's deque,
leaves every other IP's queue unchanged, and leaves the coordinator fully
untouched — no future is created, nothing is enqueued, the current slot is
unchanged. -/
theorem preset_pop_frame (sendOk : Client → Bool) (clients : List Client)
    (st : SysState) (r : Req) (item : PresetItem) (rest : List PresetItem)
    (hb : st.bypassEnabled = false)
    (hq : st.presetQueues r.ip = item :: rest) :
    (handle_completion sendOk clients st r).1.presetQueues r.ip = rest
    ∧ (∀ j, j ≠ r.ip →
        (handle_completion sendOk clients st r).1.presetQueues j
          = st.presetQueues j)
    ∧ (handle_completion sendOk clients st r).1.coord = st.coord
    ∧ (handle_completion sendOk clients st r).1.coord.pendingRequests
        = st.coord.pendingRequests
    ∧ (handle_completion sendOk clients st r).1.coord.currentRequest
        = st.coord.currentRequest
    ∧ (∀ k, (handle_completion sendOk clients st r).1.coord.requestFutures k
        = st.coord.requestFutures k)
    ∧ (handle_completion sendOk clients st r).2.1
        = Outcome.presetServed item.response item.statusCode := by
  unfold handle_completion check_and_pop
  rw [if_neg (by simp [hb]), hq]
  refine ⟨by simp, ?_, rfl, rfl, rfl, fun k => rfl, rfl⟩
  intro j hj
  simp [hj]

/-- C10 witness: popping the preset for `10.0.0.1` empties that queue, keeps
`10.0.0.2` untouched and keeps the coordinator state identical. -/
theorem preset_pop_frame_witness :
    (handle_completion (fun _ => true) [] sysPreset reqA).1.presetQueues
        "10.0.0.1" = []
    ∧ (handle_completion (fun _ => true) [] sysPreset reqA).1.presetQueues
        "10.0.0.2" = sysPreset.presetQueues "10.0.0.2"
    ∧ (handle_completion (fun _ => true) [] sysPreset reqA).1.coord
        = sysPreset.coord
    ∧ (handle_completion (fun _ => true) [] sysPreset reqA).2.1
        = Outcome.presetServed "canned" 201 := by
  have h := preset_pop_frame (fun _ => true) [] sysPreset reqA presetItem1 []
    rfl (by decide)
  exact ⟨h.1, h.2.1 "10.0.0.2" (by decide), h.2.2.1, h.2.2.2.2.2.2⟩

/-- C5: once a request's future is completed by a first resolve (or a first
cancel), any later resolve or cancel of the same request id is a strict
no-op — state unchanged, nothing delivered, nothing raised — and the first
recorded outcome is kept. -/
theorem resolution_at_most_once (sendOk sendOk2 : Client → Bool)
    (clients clients2 : List Client) (s : CoordState) (reqId : Nat)
    (resp resp2 : String) (code code2 : Nat)
    (hfut : s.requestFutures reqId = some FutureState.pending) :
    (ws_send_response sendOk2 clients2
        (ws_send_response sendOk clients s reqId resp code).state reqId resp2
        code2
      = ⟨(ws_send_response sendOk clients s reqId resp code).state, [], [],
          true⟩
    ∧ cancelOnDisconnect
        (ws_send_response sendOk clients s reqId resp code).state reqId
      = (ws_send_response sendOk clients s reqId resp code).state
    ∧ (ws_send_response sendOk clients s reqId resp code).state.requestFutures
        reqId = some (FutureState.resolved resp code))
    ∧ (ws_send_response sendOk2 clients2 (cancelOnDisconnect s reqId) reqId
        resp2 code2
      = ⟨cancelOnDisconnect s reqId, [], [], true⟩
    ∧ cancelOnDisconnect (cancelOnDisconnect s reqId) reqId
      = cancelOnDisconnect s reqId
    ∧ (cancelOnDisconnect s reqId).requestFutures reqId
      = some FutureState.cancelled) := by
  have h1 := ws_send_response_futures_resolved sendOk clients s reqId resp
    code hfut
  have hne1 : ∀ f,
      (ws_send_response sendOk clients s reqId resp
        code).state.requestFutures reqId = some f →
      f ≠ FutureState.pending := by
    intro f hf
    rw [h1] at hf
    cases hf
    simp
  have h2 : (cancelOnDisconnect s reqId).requestFutures reqId
      = some FutureState.cancelled := by
    rw [cancelOnDisconnect_pending s reqId hfut]
    simp [setFuture]
  have hne2 : ∀ f,
      (cancelOnDisconnect s reqId).requestFutures reqId = some f →
      f ≠ FutureState.pending := by
    intro f hf
    rw [h2] at hf
    cases hf
    simp
  exact ⟨⟨ws_send_response_noop _ _ _ _ _ _ hne1,
      cancelOnDisconnect_noop _ _ hne1, h1⟩,
    ⟨ws_send_response_noop _ _ _ _ _ _ hne2,
      cancelOnDisconnect_noop _ _ hne2, h2⟩⟩

/-- C5 witness: resolving queued request 2 once on `staleState` and then
resolving it again changes nothing, and the first outcome is kept. -/
theorem resolution_at_most_once_witness :
    ws_send_response (fun _ => true) []
        (ws_send_response (fun _ => true) [] staleState 2 "first" 200).state 2
        "second" 500
      = ⟨(ws_send_response (fun _ => true) [] staleState 2 "first" 200).state,
          [], [], true⟩
    ∧ (ws_send_response (fun _ => true) [] staleState 2 "first"
        200).state.requestFutures 2 = some (FutureState.resolved "first" 200)
    ∧ (cancelOnDisconnect staleState 2).requestFutures 2
      = some FutureState.cancelled := by
  have h := resolution_at_most_once (fun _ => true) (fun _ => true) [] []
    staleState 2 "first" "second" 200 500 (by decide)
  exact ⟨h.1.1, h.1.2.2, h.2.2.2⟩

/-- C2 counterexample: on `staleState`, request `reqB` (id 2) is still in the
pending queue and is not the current (announced) request, yet an operator
`send_response` for id 2 completes its future. -/
theorem operator_resolves_unannounced_request :
    reqB ∈ staleState.pendingRequests
    ∧ staleState.currentRequest ≠ some reqB
    ∧ (ws_send_response (fun _ => true) [] staleState 2 "late"
        200).state.requestFutures 2
      = some (FutureState.resolved "late" 200) := by
  refine ⟨by decide, by decide, by decide⟩

/-- C2 amended: an operator `send_response` message resolves any request
whose future is present and still pending in the resolution table — whether
that request is announced (current) or still queued. -/
theorem send_response_resolves_any_pending_future (sendOk : Client → Bool)
    (clients : List Client) (s : CoordState) (reqId : Nat) (resp : String)
    (code : Nat) (hfut : s.requestFutures reqId = some FutureState.pending) :
    (ws_send_response sendOk clients s reqId resp code).state.requestFutures
        reqId = some (FutureState.resolved resp code) :=
  ws_send_response_futures_resolved sendOk clients s reqId resp code hfut

/-- C2 amended witness at a concrete queued, unannounced request. -/
theorem send_response_resolves_any_pending_future_witness :
    (ws_send_response (fun _ => true) [3] staleState 2 "late"
        201).state.requestFutures 2
      = some (FutureState.resolved "late" 201) :=
  send_response_resolves_any_pending_future (fun _ => true) [3] staleState 2
    "late" 201 (by decide)

/-- C1 counterexample: on `staleState` the current request is `reqA` (id 1);
resolving id 2 — a different request — still clears (and then refills)
`reqA`'s slot: afterwards `current` no longer holds `reqA`. -/
theorem resolve_clears_other_requests_slot :
    staleState.currentRequest = some reqA
    ∧ reqA.id ≠ 2
    ∧ (ws_send_response (fun _ => true) [] staleState 2 "late"
        200).state.currentRequest ≠ some reqA := by
  refine ⟨rfl, by decide, by decide⟩

/-- C1 amended: the operator-message resolve path clears `current`
unconditionally whenever it completes a pending future (afterwards `current`
holds the head of the queue, not the previously current request); the
id-comparison guard exists only in the caller-side
`_cleanup_current_request`, which leaves the state unchanged when the ids
differ. -/
theorem resolve_clear_unguarded_cleanup_guarded (sendOk : Client → Bool)
    (clients : List Client) (s : CoordState) (cur : Req) (reqId : Nat)
    (resp : String) (code : Nat)
    (hcur : s.currentRequest = some cur)
    (hfut : s.requestFutures reqId = some FutureState.pending)
    (hok : ∀ c ∈ clients, sendOk c = true) :
    (ws_send_response sendOk clients s reqId resp code).state.currentRequest
        = s.pendingRequests.head?
    ∧ (cur.id ≠ reqId →
        cleanup_current_request sendOk clients s reqId = ⟨s, [], [], true⟩) := by
  constructor
  · rcases s with ⟨pend, cur0, F⟩
    simp only at hcur hfut
    subst hcur
    have hsend := sendAllUnguarded_all_ok sendOk
      (Event.completedRequest reqId cur.ip cur.port cur.body resp code)
      clients hok
    unfold ws_send_response
    simp only [hfut, hsend]
    cases pend with
    | nil => rfl
    | cons r rest => rfl
  · intro hne
    simp [cleanup_current_request, hcur, hne]

/-- C1 amended witness on `staleState`: resolving id 2 moves `current` to the
queue head; the guarded cleanup for id 2 leaves the state alone. -/
theorem resolve_clear_unguarded_cleanup_guarded_witness :
    (ws_send_response (fun _ => true) [] staleState 2 "late"
        200).state.currentRequest = staleState.pendingRequests.head?
    ∧ cleanup_current_request (fun _ => true) [] staleState 2
        = ⟨staleState, [], [], true⟩ := by
  have h := resolve_clear_unguarded_cleanup_guarded (fun _ => true) []
    staleState reqA 2 "late" 200 rfl (by decide) (by intro c hc; cases hc)
  exact ⟨h.1, h.2 (by decide)⟩

/-- C4 counterexample: a `send_response` message missing its `response` field
does not leave the receive loop running — the handler raises (`KeyError`)
and the loop stops (third component `false`), though the consumer stays in
the set. -/
theorem malformed_send_response_breaks_receive_loop :
    (websocket_receive_step (fun _ => true) [7] 7 staleState
        (some badMsg)).2.2 = false
    ∧ (websocket_receive_step (fun _ => true) [7] 7 staleState
        (some badMsg)).2.1 = [7] := ⟨rfl, rfl⟩

/-- C4 amended: a message whose type is not `send_response` is silently
ignored and the receive loop continues with the consumer kept; but a
`send_response` message missing its `id` or `response` field raises an
uncaught `KeyError` that terminates the receive loop — the state is
unchanged and the consumer is not removed from the set (removal happens only
on `WebSocketDisconnect`). -/
theorem unknown_type_ignored_malformed_send_response_raises
    (sendOk : Client → Bool) (clients : List Client) (self : Client)
    (s : CoordState) (m : WsMsg) :
    (∀ t, m.type = some t → t ≠ "send_response" →
      websocket_receive_step sendOk clients self s (some m)
        = (s, clients, true))
    ∧ (m.type = some "send_response" → (m.id = none ∨ m.response = none) →
      websocket_receive_step sendOk clients self s (some m)
        = (s, clients, false)) := by
  rcases m with ⟨ty, mid, mcode, mresp⟩
  constructor
  · intro t ht hne
    simp only at ht
    subst ht
    simp [websocket_receive_step, handle_ws_message, hne]
  · intro ht hmiss
    simp only at ht
    subst ht
    rcases hmiss with h | h
    · simp only at h
      subst h
      rfl
    · simp only at h
      subst h
      cases mid with
      | none => rfl
      | some i => rfl

/-- C4 amended witness: an unknown-typed message is ignored with the loop
alive; `badMsg` stops the loop with the state and consumer set unchanged. -/
theorem unknown_type_ignored_malformed_send_response_raises_witness :
    websocket_receive_step (fun _ => true) [7] 7 staleState
        (some ⟨some "queue_op", none, none, none⟩) = (staleState, [7], true)
    ∧ websocket_receive_step (fun _ => true) [7] 7 staleState (some badMsg)
        = (staleState, [7], false) := by
  have h := unknown_type_ignored_malformed_send_response_raises
    (fun _ => true) [7] 7 staleState ⟨some "queue_op", none, none, none⟩
  have h2 := unknown_type_ignored_malformed_send_response_raises
    (fun _ => true) [7] 7 staleState badMsg
  exact ⟨h.1 "queue_op" rfl (by decide), h2.2 rfl (Or.inr rfl)⟩

/-- C3 counterexample: broadcasting `new_request` through
`process_next_request` with consumers `[0, 1]` where consumer 0's send
raises: the healthy consumer 1 receives nothing (delivery aborted, nobody
pruned), though the event was announced. -/
theorem new_request_delivery_not_independent :
    (fun c => c == 1) (1 : Client) = true
    ∧ ((1 : Client), Event.newRequest reqB)
        ∉ (process_next_request (fun c => c == 1) [0, 1] advState).delivered
    ∧ (process_next_request (fun c => c == 1) [0, 1] advState).ok = false
    ∧ (process_next_request (fun c => c == 1) [0, 1] advState).announced
        = [reqB] := by
  refine ⟨rfl, by decide, by decide, by decide⟩

/-- C3 amended: per-consumer delivery independence holds for
`broadcast_websocket` (each healthy consumer is served, exactly the failing
consumers are pruned); but the `new_request` and operator-path
`completed_request` broadcasts use an unguarded loop in which one failing
consumer aborts delivery to every consumer after it (and prunes nobody). -/
theorem broadcast_websocket_independent_unguarded_loops_abort
    (sendOk : Client → Bool) (ev : Event) (clients cs1 cs2 : List Client)
    (c : Client) :
    (broadcast_websocket sendOk ev clients).1
        = (clients.filter (fun x => sendOk x)).map (fun x => (x, ev))
    ∧ (broadcast_websocket sendOk ev clients).2
        = clients.filter (fun x => sendOk x)
    ∧ ((∀ x ∈ cs1, sendOk x = true) → sendOk c = false →
        sendAllUnguarded sendOk ev (cs1 ++ c :: cs2)
          = (cs1.map (fun x => (x, ev)), false)) := by
  refine ⟨?_, ?_, ?_⟩
  · rw [broadcast_websocket_eq]
  · rw [broadcast_websocket_eq]
  · intro h hc
    exact sendAllUnguarded_aborts sendOk ev c cs2 hc cs1 h

/-- C3 amended witness at concrete consumers: `broadcast_websocket` serves
exactly consumer 1 and prunes the failing ones; the unguarded loop stops at
failing consumer 0. -/
theorem broadcast_websocket_independent_unguarded_loops_abort_witness :
    (broadcast_websocket (fun x => x == 1) (Event.queueUpdated "a")
        [0, 1, 2]).1 = [((1 : Client), Event.queueUpdated "a")]
    ∧ (broadcast_websocket (fun x => x == 1) (Event.queueUpdated "a")
        [0, 1, 2]).2 = [1]
    ∧ sendAllUnguarded (fun x => x == 1) (Event.queueUpdated "a")
        ([1] ++ 0 :: [2])
      = ([((1 : Client), Event.queueUpdated "a")], false) := by
  have h := broadcast_websocket_independent_unguarded_loops_abort
    (fun x => x == 1) (Event.queueUpdated "a") [0, 1, 2] [1] [2] 0
  refine ⟨?_, ?_, h.2.2 (by decide) (by decide)⟩
  · rw [h.1]
    rfl
  · rw [h.2.1]
    rfl

/-! Machinery for the FIFO announcement-order property. -/

lemma addPendings_cons (F : FutureTable) (r : Req) (rs : List Req) :
    addPendings F (r :: rs)
      = addPendings (setFuture F r.id FutureState.pending) rs := rfl

lemma addPendings_not_mem : ∀ (rs : List Req) (F : FutureTable) (k : Nat),
    k ∉ rs.map Req.id → addPendings F rs k = F k
  | [], _, _, _ => rfl
  | r :: rs, F, k, h => by
    rw [addPendings_cons]
    have hk : k ≠ r.id := by
      intro e
      exact h (by simp [e])
    rw [addPendings_not_mem rs _ k (by intro hm; exact h (by simp [hm]))]
    exact setFuture_ne F r.id k FutureState.pending hk

lemma addPendings_mem_pending : ∀ (rs : List Req) (F : FutureTable) (r : Req),
    r ∈ rs → (rs.map Req.id).Nodup →
    addPendings F rs r.id = some FutureState.pending
  | [], _, _, hmem, _ => absurd hmem (List.not_mem_nil _)
  | q :: qs, F, r, hmem, hnodup => by
    rw [addPendings_cons]
    rw [List.map_cons, List.nodup_cons] at hnodup
    rcases List.mem_cons.mp hmem with h | h
    · subst h
      rw [addPendings_not_mem qs _ r.id hnodup.1]
      exact setFuture_self F r.id FutureState.pending
    · exact addPendings_mem_pending qs _ r h hnodup.2

lemma runSubmits_busy (sendOk : Client → Bool) (clients : List Client) :
    ∀ (rs pend : List Req) (cur : Req) (F : FutureTable),
    runSubmits sendOk clients ⟨pend, some cur, F⟩ rs
      = (⟨pend ++ rs, some cur, addPendings F rs⟩, [])
  | [], pend, cur, F => by simp [runSubmits, addPendings]
  | r :: rs, pend, cur, F => by
    have ih := runSubmits_busy sendOk clients rs (pend ++ [r]) cur
      (setFuture F r.id FutureState.pending)
    simp only [runSubmits, coordinatorSubmit, process_next_request]
    rw [ih, addPendings_cons]
    simp [List.append_assoc]

lemma ws_send_response_pending_current (sendOk : Client → Bool)
    (clients : List Client) (s : CoordState) (cur : Req) (reqId : Nat)
    (resp : String) (code : Nat)
    (hcur : s.currentRequest = some cur)
    (hfut : s.requestFutures reqId = some FutureState.pending)
    (hok : ∀ c ∈ clients, sendOk c = true) :
    ws_send_response sendOk clients s reqId resp code
      = (let out := process_next_request sendOk clients
            ⟨s.pendingRequests, none,
              setFuture s.requestFutures reqId
                (FutureState.resolved resp code)⟩
         ⟨out.state,
          clients.map (fun c =>
            (c, Event.completedRequest reqId cur.ip cur.port cur.body resp
              code)) ++ out.delivered,
          out.announced, out.ok⟩) := by
  rcases s with ⟨pend, cur0, F⟩
  simp only at hcur hfut
  subst hcur
  have hsend := sendAllUnguarded_all_ok sendOk
    (Event.completedRequest reqId cur.ip cur.port cur.body resp code)
    clients hok
  unfold ws_send_response
  simp only [hfut, hsend, if_true]

lemma runDrain_serves_queue (sendOk : Client → Bool) (clients : List Client)
    (hok : ∀ c ∈ clients, sendOk c = true) :
    ∀ (qs : List Req) (cur : Req) (F : FutureTable),
    F cur.id = some FutureState.pending →
    (∀ q ∈ qs, F q.id = some FutureState.pending) →
    ((cur :: qs).map Req.id).Nodup →
    (runDrain sendOk clients ⟨qs, some cur, F⟩ (qs.length + 1)).2 = qs
  | [], cur, F, hcur, _, _ => by
    simp only [runDrain, resolveCurrent]
    rw [ws_send_response_pending_current sendOk clients _ cur cur.id "ok" 200
      rfl hcur hok]
    simp [process_next_request, runDrain]
  | q :: rest, cur, F, hcur, hqs, hnodup => by
    rw [List.map_cons, List.nodup_cons] at hnodup
    obtain ⟨hnotin, hnd2⟩ := hnodup
    have hqid : q.id ≠ cur.id := by
      intro e
      exact hnotin (by
        rw [← e]
        exact List.mem_map_of_mem Req.id (List.mem_cons_self q rest))
    have ih := runDrain_serves_queue sendOk clients hok rest q
      (setFuture F cur.id (FutureState.resolved "ok" 200))
      (by rw [setFuture_ne _ _ _ _ hqid]
          exact hqs q (List.mem_cons_self q rest))
      (by intro x hx
          have hxid : x.id ≠ cur.id := by
            intro e
            exact hnotin (by
              rw [← e]
              exact List.mem_map_of_mem Req.id (List.mem_cons_of_mem q hx))
          rw [setFuture_ne _ _ _ _ hxid]
          exact hqs x (List.mem_cons_of_mem q hx))
      hnd2
    simp only [List.length_cons, runDrain, resolveCurrent]
    rw [ws_send_response_pending_current sendOk clients _ cur cur.id "ok" 200
      rfl hcur hok]
    simp only [process_next_request]
    simpa using ih

/-- C6: starting from the initial coordinator state, any sequence of
manual-mode submissions with distinct request ids and no resolutions in
between, followed by operator resolutions of each successive current
request, announces the requests exactly in submission order — strict FIFO,
no reordering. -/
theorem fifo_announcement_order (sendOk : Client → Bool)
    (clients : List Client) (rs : List Req)
    (hok : ∀ c ∈ clients, sendOk c = true)
    (hnodup : (rs.map Req.id).Nodup) :
    (runSubmits sendOk clients initCoordState rs).2
      ++ (runDrain sendOk clients
            (runSubmits sendOk clients initCoordState rs).1 rs.length).2
      = rs := by
  cases rs with
  | nil => rfl
  | cons r qs =>
    rw [List.map_cons, List.nodup_cons] at hnodup
    obtain ⟨hnotin, hnd2⟩ := hnodup
    have hsend := sendAllUnguarded_all_ok sendOk (Event.newRequest r)
      clients hok
    have hsubmit1 : coordinatorSubmit sendOk clients initCoordState r
        = ⟨⟨[], some r, setFuture (fun _ => none) r.id FutureState.pending⟩,
            clients.map (fun c => (c, Event.newRequest r)), [r], true⟩ := by
      unfold coordinatorSubmit initCoordState process_next_request
      simp [hsend]
    have hsub : runSubmits sendOk clients initCoordState (r :: qs)
        = (⟨qs, some r,
            addPendings (setFuture (fun _ => none) r.id FutureState.pending)
              qs⟩, [r]) := by
      simp only [runSubmits, hsubmit1]
      rw [runSubmits_busy]
      simp
    rw [hsub]
    have hdrain := runDrain_serves_queue sendOk clients hok qs r
      (addPendings (setFuture (fun _ => none) r.id FutureState.pending) qs)
      (by rw [addPendings_not_mem qs _ r.id hnotin]
          exact setFuture_self _ _ _)
      (by intro q hq
          exact addPendings_mem_pending qs _ q hq hnd2)
      (by rw [List.map_cons, List.nodup_cons]
          exact ⟨hnotin, hnd2⟩)
    simpa using hdrain

/-- C6 witness: two concrete submissions drain in submission order. -/
theorem fifo_announcement_order_witness :
    (runSubmits (fun _ => true) [5] initCoordState [reqA, reqB]).2
      ++ (runDrain (fun _ => true) [5]
            (runSubmits (fun _ => true) [5] initCoordState [reqA, reqB]).1
            2).2
      = [reqA, reqB] :=
  fifo_announcement_order (fun _ => true) [5] [reqA, reqB]
    (by intro c hc; rfl) (by decide)

end MockApi
